import Mathlib

/-!
Verification of the instrument repository's Call Interceptor / Replay Engine
(`src/instrument/src/instrument_utils.ts`) and of the Declarative Metric
Evaluation dispatch (`src/instrument/src/eval/evaluator.ts`), as a shallow
embedding in Lean 4.

Modelling conventions:
* JavaScript `undefined` for an optional field/value is `Option.none`; JSON
  values are the `Value` inductive. `a ?? b` is `jsNullish`, `a || b` on
  array-valued lookups is `jsOr` (any array, even `[]`, is truthy in JS).
* JS objects used as string-keyed maps (the replay index, the cursor table,
  captured-argument maps) are association lists with first-match lookup and
  insertion-order keys, matching `Object.keys` enumeration order.
* `toJSONish`/`safeStringify` with the default redactor round-trip a
  JSON-representable value to itself, so they are modelled as the identity
  on `Value`.
* Wall-clock reads (`Date.now()`) are explicit `Nat` parameters.
-/

namespace Instrument

/-- JSON-ish runtime value (the image of `toJSONish`). -/
inductive Value where
  | null : Value
  | bool : Bool → Value
  | num : Int → Value
  | str : String → Value
  | arr : List Value → Value
  | obj : List (String × Value) → Value


/-- A `vars` entry: `{ value, at }` (see `logVar` / `LogPayload.vars`). -/
structure VarEntry where
  value : Value
  at_ : String


/-- Captured-argument map, keyed by parameter name or `arg{index}`. -/
abbrev ArgsMap := List (String × Value)

/-- Captured-variables map, keyed by variable name. -/
abbrev VarsMap := List (String × VarEntry)

/-- `LogUnit.payload` — the payload of an emitted record, mirroring the fields
written by `LogMethod` (`args`, `thisArg`, `vars`, `return`, `error`, `end`,
`durationMs`) plus the `replayed` flag set by `applyReplayIfAvailable`.
`ret` stands for the source field `return` and `endT` for `end` (Lean
keywords). -/
structure Payload where
  args : Option ArgsMap := none
  thisArg : Option Value := none
  vars : Option VarsMap := none
  ret : Option Value := none
  error : Option String := none
  endT : Option Nat := none
  durationMs : Option Nat := none
  replayed : Option Bool := none


/-- `LogUnit` (the spec's CallRecord): the normalized record envelope as
constructed and consumed by `instrument_utils.ts`. -/
structure LogUnit where
  tagId : String
  timestamp : Nat
  session : Option String := none
  project : Option String := none
  payload : Payload := {}


/-- Placeholder unit used only as the default of `List.getD` at indices that
are provably in range. -/
def dummyLogUnit : LogUnit := { tagId := "", timestamp := 0 }

/-- First-match association-list lookup (JS property read; `none` =
`undefined`). -/
def alookup {α : Type} (m : List (String × α)) (k : String) : Option α :=
  match m with
  | [] => none
  | (k', v) :: rest => if k' = k then some v else alookup rest k

/-- JS property assignment on an object map: overwrite the existing key in
place, else append a new key (insertion order preserved). -/
def aset {α : Type} (m : List (String × α)) (k : String) (v : α) :
    List (String × α) :=
  match m with
  | [] => [(k, v)]
  | (k', v') :: rest => if k' = k then (k, v) :: rest else (k', v') :: aset rest k v

/-- The replay index: `tagId -> array of units`, i.e. `InstrumentSession.replay`. -/
abbrev ReplayIndex := List (String × List LogUnit)

/-- The cursor table `InstrumentSession.replayCursor`. -/
abbrev CursorMap := List (String × Nat)

/-- `InstrumentSession` restricted to the fields the replay machinery touches.
`replayCursor` is modelled as an always-present table defaulting to `[]`;
in the source it is created together with `replay` by
`setInstrumentSessionReplay` and read through `sess.replayCursor?.[label] || 0`,
so the empty table and an undefined table are indistinguishable. -/
structure InstrumentSession where
  project : Option String := none
  sessionId : Option String := none
  replay : Option ReplayIndex := none
  replayCursor : CursorMap := []


/-- JS `a ?? b` on optional values (`none` = undefined/null). -/
def jsNullish {α : Type} (a b : Option α) : Option α :=
  match a with
  | some x => some x
  | none => b

/-- JS `a || b` where `a` is an array-valued lookup: any array — including an
empty one — is truthy, so the fallback fires only when `a` is `undefined`. -/
def jsOr (a b : Option (List LogUnit)) : Option (List LogUnit) :=
  match a with
  | some l => some l
  | none => b

/-- JS `!list || list.length === 0`. -/
def missing (a : Option (List LogUnit)) : Bool :=
  match a with
  | none => true
  | some l => l.isEmpty

/-- JS `s.split(sep)` for a single-character separator, expressed on the
character list (which is exactly what JS `split` does for one-char
separators). -/
def jsSplit (s : String) (c : Char) : List String :=
  (s.data.splitOn c).map String.mk

/-- JS `s.includes(c)` for a single character. -/
def jsIncludes (s : String) (c : Char) : Bool :=
  s.data.contains c

/-- JS `s.split('.').pop()!` (the string after the last dot; for a dotless
string this is the string itself). -/
def lastSeg (s : String) : String :=
  (jsSplit s '.').getLastD ""

/-- JS `s.split('@')[0]`. -/
def beforeAt (s : String) : String :=
  (jsSplit s '@').headD ""

/-- The list-selection steps of `applyReplayIfAvailable`
(`instrument_utils.ts:239-248`): exact label, then last-dot-segment alias when
the exact list is missing or empty, then the `@`-stripped base (with its own
dot alias), finally rejecting a still missing/empty list. -/
def replayListFor (replay : ReplayIndex) (label : String) :
    Option (List LogUnit) :=
  let l1 := alookup replay label
  let l2 := if missing l1 && jsIncludes label '.' then alookup replay (lastSeg label) else l1
  let l3 :=
    if missing l2 && jsIncludes label '@' then
      let base := beforeAt label
      jsOr (alookup replay base) (alookup replay (lastSeg base))
    else l2
  if missing l3 then none else l3

/-- The pre-call list selection of `LogMethod` (`instrument_utils.ts:360-365`).
It differs syntactically from `replayListFor`: the dot-alias fallback is an
`||`, so it fires only when the exact entry is `undefined` (an empty array
would be kept), and the `@` branch guards its dot alias with
`base.includes('.')`. -/
def preCallReplayList (replay : ReplayIndex) (label : String) :
    Option (List LogUnit) :=
  let l1 := jsOr (alookup replay label)
    (if jsIncludes label '.' then alookup replay (lastSeg label) else none)
  let l2 :=
    if missing l1 && jsIncludes label '@' then
      let base := beforeAt label
      jsOr (alookup replay base)
        (if jsIncludes base '.' then alookup replay (lastSeg base) else none)
    else l1
  if missing l2 then none else l2

/-- `sess.replayCursor?.[label] || 0` — the cursor peek shared by the pre-call
override block and `applyReplayIfAvailable`. -/
def peekCursor (sess : InstrumentSession) (label : String) : Nat :=
  (alookup sess.replayCursor label).getD 0

/-- `u.tagId.includes('.') ? u.tagId.split('.').pop()! : undefined`, then the
guard `if (lastSeg && lastSeg !== u.tagId)` of `setInstrumentSessionReplay`:
the alias key is registered only when the tag contains a dot and the final
segment is a non-empty string (JS treats `''` as falsy). When the tag contains
a dot its last segment never equals the whole tag, so the `!==` guard reduces
to non-emptiness. -/
def aliasKey (tagId : String) : Option String :=
  if jsIncludes tagId '.' then
    if lastSeg tagId ≠ "" ∧ lastSeg tagId ≠ tagId then some (lastSeg tagId)
    else none
  else none

/-- `byTag[k].push(u)` with on-demand creation of the entry
(`setInstrumentSessionReplay`, `instrument_utils.ts:214-221`). -/
def pushEntry (m : ReplayIndex) (k : String) (u : LogUnit) : ReplayIndex :=
  match m with
  | [] => [(k, [u])]
  | (k', l) :: rest =>
    if k' = k then (k', l ++ [u]) :: rest else (k', l) :: pushEntry rest k u

/-- One iteration of the `for (const u of units)` loop of
`setInstrumentSessionReplay`: push under the exact tag, then under the alias
when one is registered. -/
def indexUnit (m : ReplayIndex) (u : LogUnit) : ReplayIndex :=
  let m1 := pushEntry m u.tagId u
  match aliasKey u.tagId with
  | some k => pushEntry m1 k u
  | none => m1

/-- The `byTag` index built by `setInstrumentSessionReplay` from a record
list. -/
def buildReplayIndex (units : List LogUnit) : ReplayIndex :=
  units.foldl indexUnit []

/-- `setInstrumentSessionReplay` (`instrument_utils.ts:209-226`): requires an
active session, replaces `sess.replay` with the freshly built index and resets
`sess.replayCursor` to the empty table. -/
def setInstrumentSessionReplay (sess : Option InstrumentSession)
    (units : List LogUnit) : Except String InstrumentSession :=
  match sess with
  | none =>
    .error "setInstrumentSessionReplay must be called within an active instrument session"
  | some s =>
    .ok { s with replay := some (buildReplayIndex units), replayCursor := [] }

/-- `clearInstrumentSessionReplay` (`instrument_utils.ts:228-233`). -/
def clearInstrumentSessionReplay (sess : Option InstrumentSession) :
    Option InstrumentSession :=
  match sess with
  | none => none
  | some s => some { s with replay := none, replayCursor := [] }

/-- `ReplayResult` (`instrument_utils.ts:235`). -/
structure ReplayResult where
  unit : LogUnit
  overrideReturn : Option Value := none
  overrideArgs : Option (List Value) := none

/-- The `merged` unit of `applyReplayIfAvailable`
(`instrument_utils.ts:252-261`): spread of the original unit with `args`,
`vars`, `return` taken from the replay unit via `??`, and `replayed: true`. -/
def mergedUnit (originalUnit replayUnit : LogUnit) : LogUnit :=
  { originalUnit with
    payload := { originalUnit.payload with
      args := jsNullish replayUnit.payload.args originalUnit.payload.args,
      vars := jsNullish replayUnit.payload.vars originalUnit.payload.vars,
      ret := jsNullish replayUnit.payload.ret originalUnit.payload.ret,
      replayed := some true } }

/-- The `overrideArgs` reconstruction loop of `applyReplayIfAvailable`
(`instrument_utils.ts:269-276`): position `i` takes the value stored under the
`i`-th key of the replay args map (`Object.keys(argMap)[i]`, skipped when that
key is the falsy `''`), falling back to the live argument. -/
def rebuildOverrideArgs (argMap : ArgsMap) (callArgs : List Value) :
    List Value :=
  (List.range callArgs.length).map fun i =>
    let orig := callArgs.getD i Value.null
    match (argMap.map Prod.fst).get? i with
    | some k =>
      if k = "" then orig
      else
        match alookup argMap k with
        | some v => v
        | none => orig
    | none => orig

/-- `applyReplayIfAvailable` (`instrument_utils.ts:236-288`), returning the
`ReplayResult` together with the session as mutated by the cursor write
`sess.replayCursor![payload.label] = cursor + 1`. -/
def applyReplayIfAvailable (sess : InstrumentSession) (label : String)
    (originalUnit : LogUnit) (callArgs : List Value) :
    ReplayResult × InstrumentSession :=
  match sess.replay with
  | none => ({ unit := originalUnit }, sess)
  | some replay =>
    match replayListFor replay label with
    | none => ({ unit := originalUnit }, sess)
    | some list =>
      let cursor := peekCursor sess label
      let replayUnit := list.getD (min cursor (list.length - 1)) dummyLogUnit
      let overrideArgs :=
        if replayUnit.payload.args.isSome && !callArgs.isEmpty then
          some (rebuildOverrideArgs (replayUnit.payload.args.getD []) callArgs)
        else none
      ({ unit := mergedUnit originalUnit replayUnit,
         overrideReturn := replayUnit.payload.ret,
         overrideArgs := overrideArgs },
       { sess with replayCursor := aset sess.replayCursor label (cursor + 1) })

/-- `InstrumentType` (`index.ts`). `None` is written `NoInstr` because `None`
would shadow nothing but reads badly next to `Option`; the source values are
`None`, `Trace`, `TraceAndReplay`. -/
inductive InstrumentType where
  | NoInstr : InstrumentType
  | Trace : InstrumentType
  | TraceAndReplay : InstrumentType
deriving Repr, DecidableEq

/-- The per-invocation argument-override loop of `LogMethod`
(`instrument_utils.ts:369-382`): name-keyed override first, positional
`arg{i}` key as fallback, live value otherwise. Skipped entirely when the
selected replay unit carries no args map. -/
def overrideArgsFromMap (argMapOpt : Option ArgsMap) (names : List String)
    (args : List Value) : List Value :=
  match argMapOpt with
  | none => args
  | some argMap =>
    (List.range args.length).map fun i =>
      let orig := args.getD i Value.null
      let byName : Option Value :=
        match names.get? i with
        | some nk => if nk = "" then none else alookup argMap nk
        | none => none
      match byName with
      | some v => v
      | none =>
        match alookup argMap ("arg" ++ toString i) with
        | some v => v
        | none => orig

/-- The pre-call argument-override block of `LogMethod`
(`instrument_utils.ts:358-384`): peek the list and cursor (no state change —
the block performs no write to `sess.replayCursor`) and rewrite the argument
array from the selected replay unit's args map. -/
def preCallOverrideArgs (sess : InstrumentSession) (label : String)
    (names : List String) (args : List Value) : List Value :=
  match sess.replay with
  | none => args
  | some replay =>
    match preCallReplayList replay label with
    | none => args
    | some list =>
      let cursor := peekCursor sess label
      let replayUnit := list.getD (min cursor (list.length - 1)) dummyLogUnit
      overrideArgsFromMap replayUnit.payload.args names args

/-- `InstrumentOptions` restricted to the fields `LogMethod` reads. `params`
is the resolved `ParamInstrumentationMap` (the selector-function form of the
source resolves to such a map — with `{}` on a selector throw — before any
use, so the map is taken as the input here). `ret` is the source option
`return`; it is kept as an `Option` because `LogMethod` distinguishes
`options.return ?? None` (capture mode) from the strict
`options.return === TraceAndReplay` comparison. -/
structure InstrumentOptions where
  label : Option String := none
  includeThis : Bool := false
  params : List (String × InstrumentType) := []
  ret : Option InstrumentType := none
  replayOverrideReturn : Bool := false

/-- Outcome of invoking an implementation (or of a settled promise): a
returned value or a raised error rendered as `err?.stack || String(err)`. -/
inductive CallOutcome where
  | ok : Value → CallOutcome
  | err : String → CallOutcome

/-- What reaches the outside world from one wrapped invocation: the outcome
delivered to the caller, the units successfully handed to the sink (in
order), and the session as left behind (cursor bookkeeping). -/
structure WrapResult where
  result : CallOutcome
  emitted : List LogUnit
  finalSess : InstrumentSession

/-- The argument-capture loop of `LogMethod` (`instrument_utils.ts:399-405`):
`argMap[key] = toJSONish(args[i])` for every position whose mode is `Trace`
or `TraceAndReplay`, keyed by parameter name or the positional `arg{i}`
fallback. -/
def captureArgs (names : List String) (paramMap : List (String × InstrumentType))
    (args : List Value) : ArgsMap :=
  (List.range args.length).foldl
    (fun acc i =>
      let key := match names.get? i with
        | some n => if n = "" then "arg" ++ toString i else n
        | none => "arg" ++ toString i
      let mode := (alookup paramMap key).getD InstrumentType.NoInstr
      if mode = InstrumentType.Trace ∨ mode = InstrumentType.TraceAndReplay then
        aset acc key (args.getD i Value.null)
      else acc)
    []

/-- The `unit` literal built by `LogMethod` before emission
(`instrument_utils.ts:419-434`, identically at 445-459 and 470-485):
tag, timestamp and correlation ids come from the live payload, the payload
fields from what the call captured. -/
def liveUnit (label : String) (startT : Nat) (sess : InstrumentSession)
    (pArgs : Option ArgsMap) (pThis : Option Value) (pVars : Option VarsMap)
    (pRet : Option Value) (pErr : Option String) (endT : Nat) : LogUnit :=
  { tagId := label,
    timestamp := startT,
    session := sess.sessionId,
    project := sess.project,
    payload := { args := pArgs, thisArg := pThis, vars := pVars, ret := pRet,
                 error := pErr, endT := some endT,
                 durationMs := some (endT - startT) } }

/-- One invocation of the wrapper installed by `LogMethod`
(`instrument_utils.ts:341-519`).

Inputs model the ambient effects: `async` selects the promise branch of the
source (`isPromiseLike(result)`); `original` is the original implementation
applied to the (possibly overridden) argument array, yielding a settled
outcome; `sink` returns `some msg` when the emission raises synchronously
with that message and `none` when it completes; `thisv` is the receiver;
`liveVars` is whatever `payload.vars` the body accumulated via `logVar`;
`startT`, `endT`, `endT2` are the successive `Date.now()` readings (call
start, first completion, completion of an error handler entered after a
failed emission).

Branch structure mirrors the source: a fulfilled outcome consults
`applyReplayIfAvailable`, emits, and applies the return override
(`:412-440` / `:463-491`); a sync sink raise lands in the outer `catch`
(`:492-515`), which consults the matcher again, while an async sink raise
lands in the chained `.catch` (`:441-462`), which does not; a raising
original re-raises after emitting an error record — via the outer `catch`
(matcher consulted) in the sync branch, via `.catch` (matcher not consulted)
in the async branch. -/
def wrappedCall (async : Bool) (opts : InstrumentOptions)
    (defaultLabel : String) (names : List String) (sess : InstrumentSession)
    (sink : LogUnit → Option String) (original : List Value → CallOutcome)
    (args : List Value) (thisv : Value) (liveVars : Option VarsMap)
    (startT endT endT2 : Nat) : WrapResult :=
  let label := opts.label.getD defaultLabel
  let args1 := preCallOverrideArgs sess label names args
  let argMap := captureArgs names opts.params args1
  let pArgs := if argMap.isEmpty then none else some argMap
  let pThis := if opts.includeThis then some thisv else none
  let returnMode := opts.ret.getD InstrumentType.NoInstr
  match original args1 with
  | .ok res =>
    let pRet :=
      if returnMode = InstrumentType.Trace ∨ returnMode = InstrumentType.TraceAndReplay
      then some res else none
    let unit := liveUnit label startT sess pArgs pThis liveVars pRet none endT
    let rr := applyReplayIfAvailable sess label unit args1
    match sink rr.1.unit with
    | none =>
      let shouldOverride := opts.ret = some InstrumentType.TraceAndReplay
        ∧ opts.replayOverrideReturn ∧ rr.1.overrideReturn.isSome
      { result := .ok (if shouldOverride then rr.1.overrideReturn.getD res else res),
        emitted := [rr.1.unit], finalSess := rr.2 }
    | some sinkErr =>
      let unit2 := liveUnit label startT sess pArgs pThis liveVars pRet
        (some sinkErr) endT2
      if async then
        -- the chained `.catch` handles the raise: no matcher consult
        match sink unit2 with
        | none => { result := .err sinkErr, emitted := [unit2], finalSess := rr.2 }
        | some sinkErr2 => { result := .err sinkErr2, emitted := [], finalSess := rr.2 }
      else
        -- the outer `catch` handles the raise: matcher consulted again
        let rr2 := applyReplayIfAvailable rr.2 label unit2 args1
        match sink rr2.1.unit with
        | none => { result := .err sinkErr, emitted := [rr2.1.unit], finalSess := rr2.2 }
        | some sinkErr2 => { result := .err sinkErr2, emitted := [], finalSess := rr2.2 }
  | .err e =>
    let unit := liveUnit label startT sess pArgs pThis liveVars none (some e) endT
    if async then
      -- `.catch` (`:441-462`): emit and re-raise, no `applyReplayIfAvailable`
      match sink unit with
      | none => { result := .err e, emitted := [unit], finalSess := sess }
      | some sinkErr => { result := .err sinkErr, emitted := [], finalSess := sess }
    else
      -- outer `catch` (`:492-515`): matcher consulted, emit, re-raise
      let rr := applyReplayIfAvailable sess label unit args1
      match sink rr.1.unit with
      | none => { result := .err e, emitted := [rr.1.unit], finalSess := rr.2 }
      | some sinkErr => { result := .err sinkErr, emitted := [], finalSess := rr.2 }

/-- The ways the HTTP transport of `endpointSink` can end
(`instrument_utils.ts:291-339`): a synchronous setup failure (invalid URL —
the `catch (err)` branch), an asynchronous request error (`req.on('error')`),
or a response with some status code. -/
inductive TransportOutcome where
  | ok : Nat → TransportOutcome
  | reqError : String → TransportOutcome
  | invalidEndpoint : String → TransportOutcome

/-- Effect of one `endpointSink` invocation: diagnostics written to the
console and the exception (if any) propagated to the code that called the
sink. -/
structure SinkEffect where
  warned : List String
  raised : Option String

/-- `endpointSink` (`instrument_utils.ts:291-339`) under a given transport
behaviour. With no endpoint it degrades to `defaultSink` (a console log).
Every transport failure mode is converted into a console warning: the
synchronous `try/catch` swallows setup failures, request errors are consumed
by the `error` listener, and HTTP failure statuses only warn. -/
def endpointSink (transport : LogUnit → TransportOutcome)
    (endpoint : Option String) (unit : LogUnit) : SinkEffect :=
  match endpoint with
  | none => { warned := [], raised := none }
  | some ep =>
    match transport unit with
    | .invalidEndpoint m =>
      { warned := ["[instrument-endpoint-invalid] " ++ ep ++ " " ++ m], raised := none }
    | .reqError m =>
      { warned := ["[instrument-upload-error] " ++ ep ++ " " ++ m], raised := none }
    | .ok status =>
      if 400 ≤ status then
        { warned := ["[instrument-upload-fail] " ++ toString status ++ " " ++ ep],
          raised := none }
      else { warned := [], raised := none }

/-! Evaluation engine dispatch (`src/instrument/src/eval/evaluator.ts`). -/

/-- `MethodologyType`: the keys of the strategy `REGISTRY`
(`evaluator.ts:10-14`): `DAG`, `QAG`, `string_match`. -/
inductive MethodologyType where
  | DAG : MethodologyType
  | QAG : MethodologyType
  | string_match : MethodologyType
deriving Repr, DecidableEq

/-- `REGISTRY[metric.methodology]` membership: which methodology strings name
a registered strategy. -/
def registryLookup (methodology : String) : Option MethodologyType :=
  if methodology = "DAG" then some MethodologyType.DAG
  else if methodology = "QAG" then some MethodologyType.QAG
  else if methodology = "string_match" then some MethodologyType.string_match
  else none

/-- `MetricConfig` (spec §3 / `@workspace/common`), the fields
`evaluateMetric` reads. -/
structure MetricConfig where
  name : String
  methodology : String
  query : List (String × String) := []
  params : List (String × Value) := []

/-- `EvaluationResult` (spec §3 / `@workspace/common`). -/
structure EvaluationResult where
  metric : String
  success : Bool
  score : Option Value := none
  details : Option Value := none
  error : Option String := none

/-- Emit a JS-object field only when the value is defined. -/
def optEntry (k : String) (v : Option Value) : List (String × Value) :=
  match v with
  | some x => [(k, x)]
  | none => []

/-- The payload viewed as the JS object that `getByPath` walks. -/
def valueOfPayload (p : Payload) : Value :=
  .obj (optEntry "args" (p.args.map Value.obj)
    ++ optEntry "thisArg" p.thisArg
    ++ optEntry "vars" (p.vars.map fun vs =>
        Value.obj (vs.map fun kv =>
          (kv.1, Value.obj [("value", kv.2.value), ("at", Value.str kv.2.at_)])))
    ++ optEntry "return" p.ret
    ++ optEntry "error" (p.error.map Value.str)
    ++ optEntry "end" (p.endT.map fun n => Value.num n)
    ++ optEntry "durationMs" (p.durationMs.map fun n => Value.num n)
    ++ optEntry "replayed" (p.replayed.map Value.bool))

/-- A `LogUnit` viewed as the JS object that `getByPath` walks. -/
def valueOfUnit (u : LogUnit) : Value :=
  .obj ([("tagId", Value.str u.tagId), ("timestamp", Value.num u.timestamp)]
    ++ optEntry "session" (u.session.map Value.str)
    ++ optEntry "project" (u.project.map Value.str)
    ++ [("payload", valueOfPayload u.payload)])

/-- One step `cur = cur[p]` of `getByPath` (`eval/query.ts`). -/
def valueGet (v : Value) (p : String) : Option Value :=
  match v with
  | .obj fields => alookup fields p
  | .arr elems =>
    match p.toNat? with
    | some i => elems.get? i
    | none => none
  | _ => none

/-- `getByPath` (`eval/query.ts`): empty path yields `undefined`; otherwise
split on dots, drop empty parts, and walk. (The source first rewrites
`[n]`/`["k"]` bracket addressing into dot form; paths are taken here already
in dot form.) -/
def getByPath (obj : Value) (path : String) : Option Value :=
  if path = "" then none
  else
    ((jsSplit path '.').filter (· ≠ "")).foldl
      (fun cur p =>
        match cur with
        | none => none
        | some v => valueGet v p)
      (some obj)

/-- `projectInputs` (`eval/query.ts`): resolve every query expression against
the object. -/
def projectInputs (obj : Value) (mapping : List (String × String)) :
    List (String × Option Value) :=
  mapping.map fun kv => (kv.1, getByPath obj kv.2)

/-- What a registered strategy's `m.evaluate({metric, inputs, llm})` settles
to: a result, or a raised error (caught by `evaluateMetric`'s `try/catch`).
The three built-in strategies are pluggable async functions; their behaviour
enters the dispatch model as this function. -/
abbrev StrategyRunner :=
  MethodologyType → MetricConfig → List (String × Option Value) →
    Except String EvaluationResult

/-- `evaluateMetric` (`evaluator.ts:23-32`): an unregistered methodology name
short-circuits to a non-thrown `{success:false, error}` result; otherwise the
query is projected and the strategy run, with a raise degraded to a failed
result. Totality of this function is the no-throw contract. -/
def evaluateMetric (runStrategy : StrategyRunner) (metric : MetricConfig)
    (unit : LogUnit) : EvaluationResult :=
  match registryLookup metric.methodology with
  | none =>
    { metric := metric.name, success := false,
      error := some ("Unknown methodology: " ++ metric.methodology) }
  | some m =>
    let inputs := projectInputs (valueOfUnit unit) metric.query
    match runStrategy m metric inputs with
    | .ok r => r
    | .error e => { metric := metric.name, success := false, error := some e }

/-! Derived notions used to state the claims. -/

/-- A record lands in the index entry for key `q` exactly when `q` is its tag
or its registered alias (used to characterise `buildReplayIndex`). -/
def matchesKey (u : LogUnit) (q : String) : Bool :=
  u.tagId == q || aliasKey u.tagId == some q

/-- The record `applyReplayIfAvailable` selects for the current invocation:
the matched list indexed at the cursor clamped to the last position. -/
def selectedUnit (sess : InstrumentSession) (label : String)
    (list : List LogUnit) : LogUnit :=
  list.getD (min (peekCursor sess label) (list.length - 1)) dummyLogUnit

/-- The error record `LogMethod` builds when the original implementation (or
a later step of the success path) raised with message `e`: captured args and
receiver, no return, `error` set. -/
def errUnitOf (opts : InstrumentOptions) (dl : String) (names : List String)
    (sess : InstrumentSession) (args : List Value) (thisv : Value)
    (lv : Option VarsMap) (t1 t2 : Nat) (e : String) : LogUnit :=
  liveUnit (opts.label.getD dl) t1 sess
    (if (captureArgs names opts.params
          (preCallOverrideArgs sess (opts.label.getD dl) names args)).isEmpty
     then none
     else some (captureArgs names opts.params
          (preCallOverrideArgs sess (opts.label.getD dl) names args)))
    (if opts.includeThis then some thisv else none) lv none (some e) t2

/-- The success record `LogMethod` builds when the original implementation
returned `res`: captured args and receiver, return captured when the return
mode traces, no error. -/
def okUnitOf (opts : InstrumentOptions) (dl : String) (names : List String)
    (sess : InstrumentSession) (args : List Value) (thisv : Value)
    (lv : Option VarsMap) (t1 t2 : Nat) (res : Value) : LogUnit :=
  liveUnit (opts.label.getD dl) t1 sess
    (if (captureArgs names opts.params
          (preCallOverrideArgs sess (opts.label.getD dl) names args)).isEmpty
     then none
     else some (captureArgs names opts.params
          (preCallOverrideArgs sess (opts.label.getD dl) names args)))
    (if opts.includeThis then some thisv else none) lv
    (if opts.ret.getD InstrumentType.NoInstr = InstrumentType.Trace ∨
        opts.ret.getD InstrumentType.NoInstr = InstrumentType.TraceAndReplay
     then some res else none)
    none t2

/-- The session left behind by one post-call consume step for `label`
(the second component of `applyReplayIfAvailable`). -/
def consumeSess (label : String) (u : LogUnit) (ca : List Value)
    (sess : InstrumentSession) : InstrumentSession :=
  (applyReplayIfAvailable sess label u ca).2

/-- The session after `n` consecutive instrumented calls to `label` have
consumed (each call's post-call consume step applied in order). -/
def iterConsume (label : String) (u : LogUnit) (ca : List Value) :
    Nat → InstrumentSession → InstrumentSession
  | 0, s => s
  | n + 1, s => iterConsume label u ca n (consumeSess label u ca s)

/-! Concrete fixtures (mirroring `testbed/test/replay.test.ts`), used by the
witness and counterexample theorems. -/

/-- First historical record for `ReplayDemo.foo` (`args.x = 100`,
`return = 101`). -/
def exReplay1 : LogUnit :=
  { tagId := "ReplayDemo.foo"
    timestamp := 5
    payload := { args := some [("x", Value.num 100)], ret := some (Value.num 101) } }

/-- Second historical record for `ReplayDemo.foo` (`args.x = 200`,
`return = 201`). -/
def exReplay2 : LogUnit :=
  { tagId := "ReplayDemo.foo"
    timestamp := 6
    payload := { args := some [("x", Value.num 200)], ret := some (Value.num 201) } }

/-- The replay index built from the two `ReplayDemo.foo` records. -/
def exIndex : ReplayIndex := buildReplayIndex [exReplay1, exReplay2]

/-- A session with the example replay set installed and a fresh cursor
table. -/
def exSession : InstrumentSession :=
  { project := some "proj", sessionId := some "sess", replay := some exIndex }

/-- A live unit for `ReplayDemo.foo` as captured at call start. -/
def exLive : LogUnit := { tagId := "ReplayDemo.foo", timestamp := 100 }

/-- Options used by the example wrapped method: traced-and-replayable
argument `x`, return override explicitly enabled. -/
def exOpts : InstrumentOptions :=
  { ret := some InstrumentType.TraceAndReplay
    params := [("x", InstrumentType.TraceAndReplay)]
    replayOverrideReturn := true }

/-- The example original implementation: `foo(x) = x + 1`. -/
def exImpl : List Value → CallOutcome := fun a =>
  match a.headD Value.null with
  | Value.num n => .ok (Value.num (n + 1))
  | _ => .err "TypeError"

/-! Helper lemmas. -/

theorem alookup_aset {α : Type} (m : List (String × α)) (k : String) (v : α)
    (q : String) :
    alookup (aset m k v) q = if k = q then some v else alookup m q := by
  induction m with
  | nil => simp [aset, alookup]
  | cons hd tl ih =>
    obtain ⟨k', v'⟩ := hd
    by_cases hkq : k = q
    · subst hkq
      by_cases h1 : k' = k
      · subst h1
        simp [aset, alookup]
      · simp [aset, alookup, h1, ih]
    · by_cases h1 : k' = k
      · subst h1
        simp [aset, alookup, hkq]
      · simp [aset, alookup, h1, hkq, ih]

theorem alookup_pushEntry (m : ReplayIndex) (k : String) (u : LogUnit)
    (q : String) :
    alookup (pushEntry m k u) q =
      if k = q then some ((alookup m q).getD [] ++ [u]) else alookup m q := by
  induction m with
  | nil => simp [pushEntry, alookup]
  | cons hd tl ih =>
    obtain ⟨k', l⟩ := hd
    by_cases hkq : k = q
    · subst hkq
      by_cases h1 : k' = k
      · subst h1
        simp [pushEntry, alookup]
      · simp [pushEntry, alookup, h1, ih]
    · by_cases h1 : k' = k
      · subst h1
        simp [pushEntry, alookup, hkq]
      · simp [pushEntry, alookup, h1, hkq, ih]

theorem aliasKey_ne_tag {t a : String} (h : aliasKey t = some a) : a ≠ t := by
  unfold aliasKey at h
  split at h
  · split at h
    · rename_i hcond
      cases h
      exact hcond.2
    · cases h
  · cases h

theorem entry_indexUnit (m : ReplayIndex) (u : LogUnit) (q : String) :
    (alookup (indexUnit m u) q).getD [] =
      (alookup m q).getD [] ++ (if matchesKey u q then [u] else []) := by
  unfold indexUnit matchesKey
  cases haK : aliasKey u.tagId with
  | none =>
    simp only [haK, alookup_pushEntry]
    by_cases h : u.tagId = q <;> simp [h, haK]
  | some a =>
    have hne : a ≠ u.tagId := aliasKey_ne_tag haK
    simp only [haK, alookup_pushEntry]
    by_cases h1 : u.tagId = q <;> by_cases h2 : a = q <;>
      simp_all [haK]

theorem none_indexUnit (m : ReplayIndex) (u : LogUnit) (q : String) :
    alookup (indexUnit m u) q = none ↔
      alookup m q = none ∧ matchesKey u q = false := by
  unfold indexUnit matchesKey
  cases haK : aliasKey u.tagId with
  | none =>
    simp only [haK, alookup_pushEntry]
    by_cases h : u.tagId = q <;> simp [h, haK]
  | some a =>
    simp only [haK, alookup_pushEntry]
    by_cases h1 : u.tagId = q <;> by_cases h2 : a = q <;>
      simp_all [haK]

theorem foldl_indexUnit_entry (us : List LogUnit) (m : ReplayIndex)
    (q : String) :
    (alookup (us.foldl indexUnit m) q).getD [] =
      (alookup m q).getD [] ++ us.filter (fun u => matchesKey u q) := by
  induction us generalizing m with
  | nil => simp
  | cons hd tl ih =>
    simp only [List.foldl_cons, List.filter_cons]
    rw [ih, entry_indexUnit]
    by_cases h : matchesKey hd q <;> simp [h]

theorem foldl_indexUnit_none (us : List LogUnit) (m : ReplayIndex)
    (q : String) :
    alookup (us.foldl indexUnit m) q = none ↔
      alookup m q = none ∧ us.filter (fun u => matchesKey u q) = [] := by
  induction us generalizing m with
  | nil => simp
  | cons hd tl ih =>
    simp only [List.foldl_cons, List.filter_cons]
    rw [ih, none_indexUnit]
    by_cases h : matchesKey hd q <;> simp [h, and_assoc]

/-- The index built by `setInstrumentSessionReplay` never maps a key to an
empty list. -/
theorem buildReplayIndex_ne_nil (us : List LogUnit) (q : String)
    (l : List LogUnit) (h : alookup (buildReplayIndex us) q = some l) :
    l ≠ [] := by
  intro hl
  subst hl
  have h1 := foldl_indexUnit_entry us [] q
  unfold buildReplayIndex at h
  rw [h] at h1
  simp [alookup] at h1
  have h2 := (foldl_indexUnit_none us [] q).mpr
    ⟨by simp [alookup], by simpa using h1⟩
  rw [h2] at h
  cases h

/-- A dotless string is its own last dot-segment (as JS `split('.').pop()`
returns the whole string). -/
theorem lastSeg_of_noDot (s : String) (h : jsIncludes s '.' = false) :
    lastSeg s = s := by
  unfold lastSeg jsSplit
  unfold jsIncludes at h
  rw [List.splitOn, List.splitOnP_eq_single]
  · cases s
    simp
  · intro x hx
    simp only [List.contains_eq_any_beq, List.any_eq_false] at h
    have hx' := h x hx
    intro hb
    rw [beq_iff_eq] at hb hx'
    exact hx' hb.symm

/-- On an index with no empty entry lists — `buildReplayIndex` produces no
other kind — the pre-call list selection of `LogMethod` and the list
selection of `applyReplayIfAvailable` pick the same list. -/
theorem preCall_eq_replayListFor (R : ReplayIndex) (label : String)
    (hne : ∀ q l, alookup R q = some l → l ≠ []) :
    preCallReplayList R label = replayListFor R label := by
  have s1 : jsOr (alookup R label)
      (if jsIncludes label '.' = true then alookup R (lastSeg label) else none) =
      (if missing (alookup R label) && jsIncludes label '.' then
        alookup R (lastSeg label) else alookup R label) := by
    cases hA : alookup R label with
    | none => cases hdot : jsIncludes label '.' <;> simp [jsOr, missing, hdot]
    | some l =>
      have hl : l.isEmpty = false := by
        cases l
        · exact absurd rfl (hne _ _ hA)
        · rfl
      simp [jsOr, missing, hl]
  have s2 : jsOr (alookup R (beforeAt label))
      (if jsIncludes (beforeAt label) '.' = true then
        alookup R (lastSeg (beforeAt label)) else none) =
      jsOr (alookup R (beforeAt label)) (alookup R (lastSeg (beforeAt label))) := by
    cases hC : alookup R (beforeAt label) with
    | some lC => simp [jsOr]
    | none =>
      by_cases hbd : jsIncludes (beforeAt label) '.' = true
      · simp [jsOr, hbd]
      · rw [lastSeg_of_noDot (beforeAt label) (by simpa using hbd)]
        simp [jsOr, hbd, hC]
  simp only [preCallReplayList, replayListFor]
  rw [s1, s2]

theorem applyReplay_no_replay (sess : InstrumentSession) (label : String)
    (u : LogUnit) (ca : List Value) (h : sess.replay = none) :
    applyReplayIfAvailable sess label u ca = ({ unit := u }, sess) := by
  simp [applyReplayIfAvailable, h]

theorem applyReplay_no_match (sess : InstrumentSession) (R : ReplayIndex)
    (label : String) (u : LogUnit) (ca : List Value)
    (h1 : sess.replay = some R) (h2 : replayListFor R label = none) :
    applyReplayIfAvailable sess label u ca = ({ unit := u }, sess) := by
  simp [applyReplayIfAvailable, h1, h2]

theorem applyReplay_match (sess : InstrumentSession) (R : ReplayIndex)
    (list : List LogUnit) (label : String) (u : LogUnit) (ca : List Value)
    (h1 : sess.replay = some R) (h2 : replayListFor R label = some list) :
    applyReplayIfAvailable sess label u ca =
      ({ unit := mergedUnit u (selectedUnit sess label list)
         overrideReturn := (selectedUnit sess label list).payload.ret
         overrideArgs :=
           if (selectedUnit sess label list).payload.args.isSome && !ca.isEmpty
           then some (rebuildOverrideArgs
             ((selectedUnit sess label list).payload.args.getD []) ca)
           else none },
       { sess with
         replayCursor := aset sess.replayCursor label (peekCursor sess label + 1) }) := by
  simp [applyReplayIfAvailable, h1, h2, selectedUnit]

/-- A matched consume step bumps the label's cursor by one and leaves the
replay index (and every other session field) unchanged. -/
theorem consumeSess_match (sess : InstrumentSession) (R : ReplayIndex)
    (list : List LogUnit) (label : String) (u : LogUnit) (ca : List Value)
    (h1 : sess.replay = some R) (h2 : replayListFor R label = some list) :
    (consumeSess label u ca sess).replay = some R ∧
      peekCursor (consumeSess label u ca sess) label =
        peekCursor sess label + 1 := by
  unfold consumeSess
  rw [applyReplay_match sess R list label u ca h1 h2]
  refine ⟨h1, ?_⟩
  simp [peekCursor, alookup_aset]

/-- After `n` matched consume steps the cursor has advanced by `n`. -/
theorem iterConsume_cursor (label : String) (u : LogUnit) (ca : List Value)
    (R : ReplayIndex) (list : List LogUnit)
    (h2 : replayListFor R label = some list) :
    ∀ (n : Nat) (sess : InstrumentSession), sess.replay = some R →
      (iterConsume label u ca n sess).replay = some R ∧
        peekCursor (iterConsume label u ca n sess) label =
          peekCursor sess label + n := by
  intro n
  induction n with
  | zero => intro sess h1; exact ⟨h1, rfl⟩
  | succ n ih =>
    intro sess h1
    have hstep := consumeSess_match sess R list label u ca h1 h2
    have hn := ih (consumeSess label u ca sess) hstep.1
    simp only [iterConsume]
    refine ⟨hn.1, ?_⟩
    rw [hn.2, hstep.2]
    omega

/-- With a non-raising sink, a raising original makes the wrapper emit one
error record and re-raise: through `applyReplayIfAvailable` in the
synchronous branch (outer `catch`), directly in the asynchronous branch
(chained `.catch`). -/
theorem wrappedCall_err_async (opts : InstrumentOptions) (dl : String)
    (names : List String) (sess : InstrumentSession)
    (sink : LogUnit → Option String) (original : List Value → CallOutcome)
    (args : List Value) (thisv : Value) (lv : Option VarsMap)
    (t1 t2 t3 : Nat) (e : String)
    (hsink : ∀ u, sink u = none)
    (herr : original (preCallOverrideArgs sess (opts.label.getD dl) names args) =
      .err e) :
    wrappedCall true opts dl names sess sink original args thisv lv t1 t2 t3 =
      { result := .err e
        emitted := [errUnitOf opts dl names sess args thisv lv t1 t2 e]
        finalSess := sess } := by
  simp [wrappedCall, herr, hsink, errUnitOf]

theorem wrappedCall_err_sync (opts : InstrumentOptions) (dl : String)
    (names : List String) (sess : InstrumentSession)
    (sink : LogUnit → Option String) (original : List Value → CallOutcome)
    (args : List Value) (thisv : Value) (lv : Option VarsMap)
    (t1 t2 t3 : Nat) (e : String)
    (hsink : ∀ u, sink u = none)
    (herr : original (preCallOverrideArgs sess (opts.label.getD dl) names args) =
      .err e) :
    wrappedCall false opts dl names sess sink original args thisv lv t1 t2 t3 =
      { result := .err e
        emitted := [(applyReplayIfAvailable sess (opts.label.getD dl)
          (errUnitOf opts dl names sess args thisv lv t1 t2 e)
          (preCallOverrideArgs sess (opts.label.getD dl) names args)).1.unit]
        finalSess := (applyReplayIfAvailable sess (opts.label.getD dl)
          (errUnitOf opts dl names sess args thisv lv t1 t2 e)
          (preCallOverrideArgs sess (opts.label.getD dl) names args)).2 } := by
  simp [wrappedCall, herr, hsink, errUnitOf]

/-- With a non-raising sink, a fulfilled original makes the wrapper emit the
replay-merged record and return the original result unless the return
override is enabled and available. -/
theorem wrappedCall_ok (async : Bool) (opts : InstrumentOptions) (dl : String)
    (names : List String) (sess : InstrumentSession)
    (sink : LogUnit → Option String) (original : List Value → CallOutcome)
    (args : List Value) (thisv : Value) (lv : Option VarsMap)
    (t1 t2 t3 : Nat) (res : Value)
    (hsink : ∀ u, sink u = none)
    (hok : original (preCallOverrideArgs sess (opts.label.getD dl) names args) =
      .ok res) :
    wrappedCall async opts dl names sess sink original args thisv lv t1 t2 t3 =
      { result := .ok (if opts.ret = some InstrumentType.TraceAndReplay ∧
            opts.replayOverrideReturn ∧
            (applyReplayIfAvailable sess (opts.label.getD dl)
              (okUnitOf opts dl names sess args thisv lv t1 t2 res)
              (preCallOverrideArgs sess (opts.label.getD dl) names args)).1.overrideReturn.isSome
          then (applyReplayIfAvailable sess (opts.label.getD dl)
              (okUnitOf opts dl names sess args thisv lv t1 t2 res)
              (preCallOverrideArgs sess (opts.label.getD dl) names args)).1.overrideReturn.getD res
          else res)
        emitted := [(applyReplayIfAvailable sess (opts.label.getD dl)
          (okUnitOf opts dl names sess args thisv lv t1 t2 res)
          (preCallOverrideArgs sess (opts.label.getD dl) names args)).1.unit]
        finalSess := (applyReplayIfAvailable sess (opts.label.getD dl)
          (okUnitOf opts dl names sess args thisv lv t1 t2 res)
          (preCallOverrideArgs sess (opts.label.getD dl) names args)).2 } := by
  cases async <;> simp [wrappedCall, hok, hsink, okUnitOf]

theorem errUnitOf_error (opts : InstrumentOptions) (dl : String)
    (names : List String) (sess : InstrumentSession) (args : List Value)
    (thisv : Value) (lv : Option VarsMap) (t1 t2 : Nat) (e : String) :
    (errUnitOf opts dl names sess args thisv lv t1 t2 e).payload.error = some e :=
  rfl

theorem errUnitOf_replayed (opts : InstrumentOptions) (dl : String)
    (names : List String) (sess : InstrumentSession) (args : List Value)
    (thisv : Value) (lv : Option VarsMap) (t1 t2 : Nat) (e : String) :
    (errUnitOf opts dl names sess args thisv lv t1 t2 e).payload.replayed = none :=
  rfl

theorem mergedUnit_error (u r : LogUnit) :
    (mergedUnit u r).payload.error = u.payload.error :=
  rfl

theorem mergedUnit_replayed (u r : LogUnit) :
    (mergedUnit u r).payload.replayed = some true :=
  rfl

/-! Claim theorems. -/

/-- C10: installing a replay set on an active session replaces the whole
replay index with one built from the given records alone, resets the cursor
table to empty, and thereby makes the next cursor peek of every identifier
read 0. -/
theorem c10_setReplay_replaces_index_and_resets_cursors
    (sess : InstrumentSession) (units : List LogUnit) :
    setInstrumentSessionReplay (some sess) units =
      .ok { sess with replay := some (buildReplayIndex units), replayCursor := [] } ∧
    ∀ (label : String),
      peekCursor { sess with replay := some (buildReplayIndex units), replayCursor := ([] : CursorMap) } label = 0 := by
  refine ⟨rfl, ?_⟩
  intro label
  simp [peekCursor, alookup]

/-- C9: a `MetricConfig` whose methodology names no registered strategy
evaluates to a single non-thrown `EvaluationResult` with `success := false`
and a populated (non-empty) error string, whatever the strategies do on
other inputs. -/
theorem c9_unknown_methodology_is_nonfatal (runStrategy : StrategyRunner)
    (metric : MetricConfig) (unit : LogUnit)
    (h : registryLookup metric.methodology = none) :
    evaluateMetric runStrategy metric unit =
      { metric := metric.name, success := false,
        error := some ("Unknown methodology: " ++ metric.methodology) } ∧
    ("Unknown methodology: " ++ metric.methodology).length ≠ 0 := by
  constructor
  · simp [evaluateMetric, h]
  · rw [String.length_append]
    have hlen : "Unknown methodology: ".length = 21 := rfl
    omega

/-- C9 witness: a bogus methodology name against a strategy runner that would
error everywhere still produces the failed result without raising. -/
theorem c9_witness :
    registryLookup "bogus" = none ∧
    evaluateMetric (fun _ _ _ => .error "never") { name := "m", methodology := "bogus" }
        dummyLogUnit =
      { metric := "m", success := false,
        error := some ("Unknown methodology: " ++ "bogus") } :=
  ⟨rfl, (c9_unknown_methodology_is_nonfatal (fun _ _ _ => .error "never")
    { name := "m", methodology := "bogus" } dummyLogUnit rfl).1⟩

/-- C8: merging a live record with a historical one can touch only `args`,
`vars`, `return` and `replayed`; the emitted record keeps the live call's
`tagId`, `timestamp`, `session`, `project`, `thisArg`, `error`, `end` and
`durationMs` — in particular the timestamp is never the historical one. -/
theorem c8_merge_preserves_live_envelope (sess : InstrumentSession)
    (label : String) (u : LogUnit) (ca : List Value) :
    (applyReplayIfAvailable sess label u ca).1.unit.tagId = u.tagId ∧
    (applyReplayIfAvailable sess label u ca).1.unit.timestamp = u.timestamp ∧
    (applyReplayIfAvailable sess label u ca).1.unit.session = u.session ∧
    (applyReplayIfAvailable sess label u ca).1.unit.project = u.project ∧
    (applyReplayIfAvailable sess label u ca).1.unit.payload.thisArg =
      u.payload.thisArg ∧
    (applyReplayIfAvailable sess label u ca).1.unit.payload.error =
      u.payload.error ∧
    (applyReplayIfAvailable sess label u ca).1.unit.payload.endT =
      u.payload.endT ∧
    (applyReplayIfAvailable sess label u ca).1.unit.payload.durationMs =
      u.payload.durationMs := by
  cases hrep : sess.replay with
  | none =>
    rw [applyReplay_no_replay sess label u ca hrep]
    exact ⟨rfl, rfl, rfl, rfl, rfl, rfl, rfl, rfl⟩
  | some R =>
    cases hl : replayListFor R label with
    | none =>
      rw [applyReplay_no_match sess R label u ca hrep hl]
      exact ⟨rfl, rfl, rfl, rfl, rfl, rfl, rfl, rfl⟩
    | some list =>
      rw [applyReplay_match sess R list label u ca hrep hl]
      exact ⟨rfl, rfl, rfl, rfl, rfl, rfl, rfl, rfl⟩

/-- C7 counterexample: for the record list `[{tagId := "a."}]` the last
dot-delimited segment of the tag (`""`) differs from the full tag, so the
claim requires an alias entry under `""`; `setInstrumentSessionReplay`
registers none (JS `''` is falsy in the `lastSeg &&` guard). -/
theorem c7_counterexample :
    lastSeg "a." ≠ "a." ∧
    alookup (buildReplayIndex [{ tagId := "a.", timestamp := 0 }]) (lastSeg "a.") =
      none := by
  constructor
  · decide
  · rfl

/-- C7 (amended: the alias is registered only when the last dot-delimited
segment is non-empty, in addition to differing from the full tag): the entry
stored under any key `q` consists, in order, of exactly the records whose tag
is `q` or whose registered alias is `q`; no entry is ever an empty list; and
lookup uses the exact label first, consulting the alias only when the
exact-label entry is missing or empty. -/
theorem c7_alias_indexing_and_lookup_order :
    (∀ (us : List LogUnit) (q : String),
      (alookup (buildReplayIndex us) q).getD [] =
        us.filter (fun u => matchesKey u q)) ∧
    (∀ (us : List LogUnit) (q : String) (l : List LogUnit),
      alookup (buildReplayIndex us) q = some l → l ≠ []) ∧
    (∀ (R : ReplayIndex) (label : String) (l : List LogUnit),
      alookup R label = some l → l ≠ [] → replayListFor R label = some l) ∧
    (∀ (R : ReplayIndex) (label : String) (l : List LogUnit),
      missing (alookup R label) = true → jsIncludes label '.' = true →
      alookup R (lastSeg label) = some l → l ≠ [] →
      replayListFor R label = some l) := by
  refine ⟨?_, buildReplayIndex_ne_nil, ?_, ?_⟩
  · intro us q
    have h := foldl_indexUnit_entry us [] q
    unfold buildReplayIndex
    rw [h]
    simp [alookup]
  · intro R label l hl hne
    have hl' : l.isEmpty = false := by
      cases l
      · exact absurd rfl hne
      · rfl
    simp [replayListFor, hl, missing, hl']
  · intro R label l hmiss hdot hl hne
    have hl' : l.isEmpty = false := by
      cases l
      · exact absurd rfl hne
      · rfl
    simp only [replayListFor]
    rw [hmiss, hdot, hl]
    simp [missing, hl']

/-- C7 witness: aliasing and precedence at work — a class-qualified capture
matches a short label through the alias, and the exact label wins when its
entry exists. -/
theorem c7_witness :
    (alookup (buildReplayIndex [exReplay1, exReplay2]) "foo").getD [] =
      [exReplay1, exReplay2] ∧
    replayListFor (buildReplayIndex [exReplay1, exReplay2]) "ReplayDemo.foo" =
      some [exReplay1, exReplay2] := by
  have h := c7_alias_indexing_and_lookup_order
  refine ⟨?_, ?_⟩
  · rw [h.1 [exReplay1, exReplay2] "foo"]
    rfl
  · exact h.2.2.1 _ _ _ rfl (by simp)

/-- C3 counterexample: a matching historical record that supplies none of
`args`, `vars`, `return` (its payload is empty) still makes the emitted
record carry `replayed := some true`, even though nothing was taken from it —
the emitted payload is the live one except for the flag. -/
theorem c3_counterexample :
    (LogUnit.payload { tagId := "f", timestamp := 0 }).args = none ∧
    (LogUnit.payload { tagId := "f", timestamp := 0 }).vars = none ∧
    (LogUnit.payload { tagId := "f", timestamp := 0 }).ret = none ∧
    (applyReplayIfAvailable
        { replay := some (buildReplayIndex [{ tagId := "f", timestamp := 0 }]) }
        "f" { tagId := "f", timestamp := 1 } []).1.unit.payload =
      { replayed := some true } :=
  ⟨rfl, rfl, rfl, rfl⟩

/-- C3 (amended: `payload.replayed` is set iff the lookup found a matching
replay list for the call's label, regardless of whether the matched record
supplies any of `args`, `vars`, `return`): on a live unit with `replayed`
absent, the emitted flag is `some true` exactly when a match exists, and
without a match the emitted unit is the live unit unchanged. -/
theorem c3_replayed_iff_lookup_matched (sess : InstrumentSession)
    (label : String) (u : LogUnit) (ca : List Value)
    (h : u.payload.replayed = none) :
    ((applyReplayIfAvailable sess label u ca).1.unit.payload.replayed = some true
      ↔ ∃ R list, sess.replay = some R ∧ replayListFor R label = some list) ∧
    ((applyReplayIfAvailable sess label u ca).1.unit.payload.replayed = none
      → (applyReplayIfAvailable sess label u ca).1.unit = u) := by
  cases hrep : sess.replay with
  | none =>
    rw [applyReplay_no_replay sess label u ca hrep]
    constructor
    · simp [h, hrep]
    · intro _
      rfl
  | some R =>
    cases hl : replayListFor R label with
    | none =>
      rw [applyReplay_no_match sess R label u ca hrep hl]
      constructor
      · constructor
        · intro hcontr
          rw [h] at hcontr
          cases hcontr
        · rintro ⟨R', list', hR', hl'⟩
          have hRR : R = R' := Option.some.inj hR'
          subst hRR
          rw [hl] at hl'
          exact Option.noConfusion hl'
      · intro _
        rfl
    | some list =>
      rw [applyReplay_match sess R list label u ca hrep hl]
      refine ⟨⟨fun _ => ⟨R, list, rfl, hl⟩, fun _ => rfl⟩, fun hcontr => ?_⟩
      exact Option.noConfusion hcontr

/-- C3 witness: with the example replay set installed, a live call to the
matching label gets its emitted record flagged as replayed. -/
theorem c3_witness :
    (applyReplayIfAvailable exSession "ReplayDemo.foo" exLive []).1.unit.payload.replayed =
      some true :=
  (c3_replayed_iff_lookup_matched exSession "ReplayDemo.foo" exLive [] rfl).1.mpr
    ⟨exIndex, [exReplay1, exReplay2], rfl, rfl⟩

/-- C1: for a call whose label matches a list of the installed
(`setInstrumentSessionReplay`-built) replay index, the pre-call
argument-override block reads the same cursor value and hence the same
selected record as the post-call consume step, and only the consume step
advances the cursor — by exactly one. The pre-call block is a pure read of
the session (it performs no cursor write), so argument override and return
override of one invocation come from one historical record. -/
theorem c1_peek_and_consume_use_same_record
    (sess : InstrumentSession) (units : List LogUnit) (label : String)
    (names : List String) (args : List Value) (u : LogUnit) (ca : List Value)
    (list : List LogUnit)
    (h1 : sess.replay = some (buildReplayIndex units))
    (h2 : replayListFor (buildReplayIndex units) label = some list) :
    preCallOverrideArgs sess label names args =
      overrideArgsFromMap (selectedUnit sess label list).payload.args names args ∧
    (applyReplayIfAvailable sess label u ca).1.unit =
      mergedUnit u (selectedUnit sess label list) ∧
    (applyReplayIfAvailable sess label u ca).1.overrideReturn =
      (selectedUnit sess label list).payload.ret ∧
    peekCursor (applyReplayIfAvailable sess label u ca).2 label =
      peekCursor sess label + 1 := by
  have hne := buildReplayIndex_ne_nil units
  have hpre : preCallReplayList (buildReplayIndex units) label = some list := by
    rw [preCall_eq_replayListFor _ _ hne, h2]
  refine ⟨?_, ?_, ?_, ?_⟩
  · simp [preCallOverrideArgs, h1, hpre, selectedUnit]
  · rw [applyReplay_match sess _ list label u ca h1 h2]
  · rw [applyReplay_match sess _ list label u ca h1 h2]
  · rw [applyReplay_match sess _ list label u ca h1 h2]
    simp [peekCursor, alookup_aset]

/-- C1 witness: on the example session the pre-call override consults the
record the consume step merges, and the consume step leaves the cursor one
higher. -/
theorem c1_witness :
    preCallOverrideArgs exSession "ReplayDemo.foo" ["x"] [Value.num 1] =
      overrideArgsFromMap
        (selectedUnit exSession "ReplayDemo.foo" [exReplay1, exReplay2]).payload.args
        ["x"] [Value.num 1] ∧
    peekCursor (applyReplayIfAvailable exSession "ReplayDemo.foo" exLive [Value.num 1]).2
        "ReplayDemo.foo" =
      peekCursor exSession "ReplayDemo.foo" + 1 :=
  ⟨(c1_peek_and_consume_use_same_record exSession [exReplay1, exReplay2]
      "ReplayDemo.foo" ["x"] [Value.num 1] exLive [Value.num 1]
      [exReplay1, exReplay2] rfl rfl).1,
   (c1_peek_and_consume_use_same_record exSession [exReplay1, exReplay2]
      "ReplayDemo.foo" ["x"] [Value.num 1] exLive [Value.num 1]
      [exReplay1, exReplay2] rfl rfl).2.2.2⟩

/-- C2: with a freshly installed replay list (`N = list.length` records,
cursor table empty for the label), the `K`-th live call's consume step uses
the record at index `min (K-1) (N-1)` — record `K-1` (0-indexed) while
`K ≤ N`, record `N-1` for every call beyond the `N`-th — and leaves the
cursor at `K`. -/
theorem c2_kth_call_uses_clamped_record
    (sess0 : InstrumentSession) (R : ReplayIndex) (list : List LogUnit)
    (label : String) (u : LogUnit) (ca : List Value) (K : Nat)
    (h1 : sess0.replay = some R)
    (h2 : replayListFor R label = some list)
    (h3 : alookup sess0.replayCursor label = none)
    (hK : 1 ≤ K) :
    (applyReplayIfAvailable (iterConsume label u ca (K - 1) sess0) label u ca).1.unit =
      mergedUnit u (list.getD (min (K - 1) (list.length - 1)) dummyLogUnit) ∧
    (applyReplayIfAvailable (iterConsume label u ca (K - 1) sess0) label u ca).1.overrideReturn =
      (list.getD (min (K - 1) (list.length - 1)) dummyLogUnit).payload.ret ∧
    peekCursor (applyReplayIfAvailable (iterConsume label u ca (K - 1) sess0) label u ca).2 label =
      K := by
  have hiter := iterConsume_cursor label u ca R list h2 (K - 1) sess0 h1
  have hpeek0 : peekCursor sess0 label = 0 := by simp [peekCursor, h3]
  have hsel : selectedUnit (iterConsume label u ca (K - 1) sess0) label list =
      list.getD (min (K - 1) (list.length - 1)) dummyLogUnit := by
    unfold selectedUnit
    rw [hiter.2, hpeek0, Nat.zero_add]
  rw [applyReplay_match _ _ list label u ca hiter.1 h2]
  refine ⟨?_, ?_, ?_⟩
  · rw [hsel]
  · rw [hsel]
  · have h2' := hiter.2
    rw [hpeek0, Nat.zero_add] at h2'
    unfold peekCursor at h2' ⊢
    rw [alookup_aset]
    simp [h2']
    omega

/-- C2 witness: the third call against the two-record example list reuses
record 1 (the last) and moves the cursor to 3. -/
theorem c2_witness :
    (applyReplayIfAvailable (iterConsume "ReplayDemo.foo" exLive [] (3 - 1) exSession)
        "ReplayDemo.foo" exLive []).1.unit =
      mergedUnit exLive
        ([exReplay1, exReplay2].getD (min (3 - 1) ([exReplay1, exReplay2].length - 1))
          dummyLogUnit) ∧
    (applyReplayIfAvailable (iterConsume "ReplayDemo.foo" exLive [] (3 - 1) exSession)
        "ReplayDemo.foo" exLive []).1.overrideReturn =
      ([exReplay1, exReplay2].getD (min (3 - 1) ([exReplay1, exReplay2].length - 1))
          dummyLogUnit).payload.ret ∧
    peekCursor (applyReplayIfAvailable (iterConsume "ReplayDemo.foo" exLive [] (3 - 1) exSession)
        "ReplayDemo.foo" exLive []).2 "ReplayDemo.foo" = 3 :=
  c2_kth_call_uses_clamped_record exSession exIndex [exReplay1, exReplay2]
    "ReplayDemo.foo" exLive [] 3 rfl rfl rfl (by decide)

/-- C5: with a non-raising sink and a fulfilled original, the caller receives
the matched record's historical return value exactly when return mode is
`TraceAndReplay`, `replayOverrideReturn` is enabled, and that record carries a
defined return; in every other situation (any condition false, no replay
installed, or no matching list) the caller receives the original result
unchanged. -/
theorem c5_return_override_exactly_when_enabled
    (async : Bool) (opts : InstrumentOptions) (dl : String)
    (names : List String) (sess : InstrumentSession)
    (sink : LogUnit → Option String) (original : List Value → CallOutcome)
    (args : List Value) (thisv : Value) (lv : Option VarsMap)
    (t1 t2 t3 : Nat) (res : Value)
    (hsink : ∀ u, sink u = none)
    (hok : original (preCallOverrideArgs sess (opts.label.getD dl) names args) =
      .ok res) :
    (∀ (R : ReplayIndex) (list : List LogUnit) (v : Value),
      sess.replay = some R →
      replayListFor R (opts.label.getD dl) = some list →
      opts.ret = some InstrumentType.TraceAndReplay →
      opts.replayOverrideReturn = true →
      (selectedUnit sess (opts.label.getD dl) list).payload.ret = some v →
      (wrappedCall async opts dl names sess sink original args thisv lv t1 t2 t3).result =
        .ok v) ∧
    (∀ (R : ReplayIndex) (list : List LogUnit),
      sess.replay = some R →
      replayListFor R (opts.label.getD dl) = some list →
      (opts.ret ≠ some InstrumentType.TraceAndReplay ∨
        opts.replayOverrideReturn = false ∨
        (selectedUnit sess (opts.label.getD dl) list).payload.ret = none) →
      (wrappedCall async opts dl names sess sink original args thisv lv t1 t2 t3).result =
        .ok res) ∧
    (sess.replay = none →
      (wrappedCall async opts dl names sess sink original args thisv lv t1 t2 t3).result =
        .ok res) ∧
    (∀ (R : ReplayIndex),
      sess.replay = some R →
      replayListFor R (opts.label.getD dl) = none →
      (wrappedCall async opts dl names sess sink original args thisv lv t1 t2 t3).result =
        .ok res) := by
  refine ⟨?_, ?_, ?_, ?_⟩
  · intro R list v hrep hl hTaR hOvr hRet
    simp [wrappedCall, hok, hsink,
      applyReplay_match sess R list (opts.label.getD dl) _ _ hrep hl,
      hTaR, hOvr, hRet]
  · intro R list hrep hl hcond
    rcases hcond with hn | hn | hn <;>
      simp [wrappedCall, hok, hsink,
        applyReplay_match sess R list (opts.label.getD dl) _ _ hrep hl, hn]
  · intro hrep
    simp [wrappedCall, hok, hsink, applyReplay_no_replay _ _ _ _ hrep]
  · intro R hrep hl
    simp [wrappedCall, hok, hsink, applyReplay_no_match _ R _ _ _ hrep hl]

/-- C5 witness: on the example session (override enabled, matching record
with a defined return) the caller gets the historical value `101`; on a
session with no replay installed the caller gets the original result `2`. -/
theorem c5_witness :
    (wrappedCall false exOpts "ReplayDemo.foo" ["x"] exSession (fun _ => none)
        exImpl [Value.num 1] Value.null none 10 11 12).result =
      .ok (Value.num 101) ∧
    (wrappedCall false exOpts "ReplayDemo.foo" ["x"] {} (fun _ => none)
        exImpl [Value.num 1] Value.null none 10 11 12).result =
      .ok (Value.num 2) := by
  constructor
  · exact (c5_return_override_exactly_when_enabled false exOpts "ReplayDemo.foo"
      ["x"] exSession (fun _ => none) exImpl [Value.num 1] Value.null none
      10 11 12 (Value.num 101) (fun _ => rfl) rfl).1
      exIndex [exReplay1, exReplay2] (Value.num 101) rfl rfl rfl rfl rfl
  · exact (c5_return_override_exactly_when_enabled false exOpts "ReplayDemo.foo"
      ["x"] {} (fun _ => none) exImpl [Value.num 1] Value.null none
      10 11 12 (Value.num 2) (fun _ => rfl) rfl).2.2.1 rfl

/-- C4 counterexample: an asynchronous original that rejects, on a session
with a matching replay list, still emits an error record and re-raises, but
the Replay Matcher is never consulted — the emitted record carries no
`replayed` flag and the session (cursor bookkeeping included) is returned
untouched, where the claim requires the cursor to advance. -/
theorem c4_counterexample :
    replayListFor exIndex "ReplayDemo.foo" = some [exReplay1, exReplay2] ∧
    (wrappedCall true exOpts "ReplayDemo.foo" ["x"] exSession (fun _ => none)
        (fun _ => .err "boom") [Value.num 1] Value.null none 50 51 52).result =
      .err "boom" ∧
    ((wrappedCall true exOpts "ReplayDemo.foo" ["x"] exSession (fun _ => none)
        (fun _ => .err "boom") [Value.num 1] Value.null none
        50 51 52).emitted.headD dummyLogUnit).payload.error = some "boom" ∧
    ((wrappedCall true exOpts "ReplayDemo.foo" ["x"] exSession (fun _ => none)
        (fun _ => .err "boom") [Value.num 1] Value.null none
        50 51 52).emitted.headD dummyLogUnit).payload.replayed = none ∧
    (wrappedCall true exOpts "ReplayDemo.foo" ["x"] exSession (fun _ => none)
        (fun _ => .err "boom") [Value.num 1] Value.null none
        50 51 52).finalSess = exSession :=
  ⟨rfl, rfl, rfl, rfl, rfl⟩

/-- C4 (amended: a failing original still emits a `CallRecord` with
`payload.error` set and re-raises the error after emission on both paths;
the Replay Matcher, however, is consulted — advancing the identifier's
cursor — only when the original raised synchronously; a rejected promise is
emitted without consulting the matcher, leaving the session untouched). -/
theorem c4_failing_call_emits_and_reraises
    (async : Bool) (opts : InstrumentOptions) (dl : String)
    (names : List String) (sess : InstrumentSession)
    (sink : LogUnit → Option String) (original : List Value → CallOutcome)
    (args : List Value) (thisv : Value) (lv : Option VarsMap)
    (t1 t2 t3 : Nat) (e : String)
    (hsink : ∀ u, sink u = none)
    (herr : original (preCallOverrideArgs sess (opts.label.getD dl) names args) =
      .err e) :
    (wrappedCall async opts dl names sess sink original args thisv lv t1 t2 t3).result =
      .err e ∧
    (wrappedCall async opts dl names sess sink original args thisv lv t1 t2 t3).emitted.length =
      1 ∧
    ((wrappedCall async opts dl names sess sink original args thisv lv t1 t2 t3).emitted.headD
      dummyLogUnit).payload.error = some e ∧
    (async = true →
      (wrappedCall async opts dl names sess sink original args thisv lv t1 t2 t3).finalSess =
        sess ∧
      ((wrappedCall async opts dl names sess sink original args thisv lv t1 t2 t3).emitted.headD
        dummyLogUnit).payload.replayed = none) ∧
    (async = false →
      ∀ (R : ReplayIndex) (list : List LogUnit),
        sess.replay = some R →
        replayListFor R (opts.label.getD dl) = some list →
        peekCursor
            (wrappedCall async opts dl names sess sink original args thisv lv t1 t2 t3).finalSess
            (opts.label.getD dl) =
          peekCursor sess (opts.label.getD dl) + 1 ∧
        ((wrappedCall async opts dl names sess sink original args thisv lv t1 t2 t3).emitted.headD
          dummyLogUnit).payload.replayed = some true) := by
  cases async with
  | true =>
    rw [wrappedCall_err_async opts dl names sess sink original args thisv lv t1 t2 t3 e
      hsink herr]
    exact ⟨rfl, rfl, rfl, fun _ => ⟨rfl, rfl⟩, fun hcontr => Bool.noConfusion hcontr⟩
  | false =>
    rw [wrappedCall_err_sync opts dl names sess sink original args thisv lv t1 t2 t3 e
      hsink herr]
    refine ⟨rfl, rfl, ?_, fun hcontr => Bool.noConfusion hcontr, ?_⟩
    · cases hrep : sess.replay with
      | none =>
        simp [applyReplay_no_replay _ _ _ _ hrep, errUnitOf_error]
      | some R =>
        cases hl : replayListFor R (opts.label.getD dl) with
        | none =>
          simp [applyReplay_no_match _ _ _ _ _ hrep hl, errUnitOf_error]
        | some list =>
          simp [applyReplay_match _ _ _ _ _ _ hrep hl, mergedUnit_error,
            errUnitOf_error]
    · intro _ R list hrep hl
      rw [applyReplay_match _ _ _ _ _ _ hrep hl]
      constructor
      · simp [peekCursor, alookup_aset]
      · simp [mergedUnit_replayed]

/-- C4 witness: a synchronously-raising original on the example session emits
an error record through the matcher (flagged replayed, cursor advanced) and
re-raises. -/
theorem c4_witness :
    (wrappedCall false exOpts "ReplayDemo.foo" ["x"] exSession (fun _ => none)
        (fun _ => .err "boom") [Value.num 1] Value.null none 50 51 52).result =
      .err "boom" ∧
    peekCursor
        (wrappedCall false exOpts "ReplayDemo.foo" ["x"] exSession (fun _ => none)
          (fun _ => .err "boom") [Value.num 1] Value.null none 50 51 52).finalSess
        "ReplayDemo.foo" =
      peekCursor exSession "ReplayDemo.foo" + 1 := by
  have h := c4_failing_call_emits_and_reraises false exOpts "ReplayDemo.foo"
    ["x"] exSession (fun _ => none) (fun _ => .err "boom") [Value.num 1]
    Value.null none 50 51 52 "boom" (fun _ => rfl) rfl
  exact ⟨h.1, (h.2.2.2.2 rfl exIndex [exReplay1, exReplay2] rfl rfl).1⟩

/-- C6 counterexample: `LogMethod` does not guard the sink invocation, so a
sink that raises synchronously replaces the call's outcome — the caller who
would have received `101` receives the sink's error instead, i.e. the
emission failure is re-raised into application code. -/
theorem c6_counterexample :
    (wrappedCall false exOpts "ReplayDemo.foo" ["x"] exSession
        (fun _ => some "sink exploded") exImpl [Value.num 1] Value.null none
        10 11 12).result = .err "sink exploded" ∧
    (wrappedCall false exOpts "ReplayDemo.foo" ["x"] exSession (fun _ => none)
        exImpl [Value.num 1] Value.null none 10 11 12).result =
      .ok (Value.num 101) :=
  ⟨rfl, rfl⟩

/-- C6 (amended: failures of the *endpoint transport* are all swallowed
inside `endpointSink` — invalid endpoint, request error and HTTP failure
status each degrade to a console warning, never a raise — and with any
non-raising sink the call's outcome is untouched by emission: a raising
original re-raises its own error and a returning original returns its own
result unless the explicitly-enabled return override applies. A *sink
function* that itself raises synchronously is, however, not guarded by
`LogMethod` and does change the outcome — see the counterexample.) -/
theorem c6_transport_failures_never_change_outcome :
    (∀ (transport : LogUnit → TransportOutcome) (ep : Option String) (u : LogUnit),
      (endpointSink transport ep u).raised = none) ∧
    (∀ (async : Bool) (opts : InstrumentOptions) (dl : String)
        (names : List String) (sess : InstrumentSession)
        (sink : LogUnit → Option String) (original : List Value → CallOutcome)
        (args : List Value) (thisv : Value) (lv : Option VarsMap)
        (t1 t2 t3 : Nat),
      (∀ u, sink u = none) →
      (∀ e, original (preCallOverrideArgs sess (opts.label.getD dl) names args) = .err e →
        (wrappedCall async opts dl names sess sink original args thisv lv t1 t2 t3).result =
          .err e) ∧
      (∀ res, original (preCallOverrideArgs sess (opts.label.getD dl) names args) = .ok res →
        ¬(opts.ret = some InstrumentType.TraceAndReplay ∧
          opts.replayOverrideReturn = true) →
        (wrappedCall async opts dl names sess sink original args thisv lv t1 t2 t3).result =
          .ok res)) := by
  constructor
  · intro transport ep u
    unfold endpointSink
    cases ep with
    | none => rfl
    | some ep =>
      cases transport u with
      | ok status =>
        by_cases h : 400 ≤ status <;> simp [h]
      | reqError m => rfl
      | invalidEndpoint m => rfl
  · intro async opts dl names sess sink original args thisv lv t1 t2 t3 hsink
    constructor
    · intro e herr
      cases async with
      | true =>
        rw [wrappedCall_err_async opts dl names sess sink original args thisv
          lv t1 t2 t3 e hsink herr]
      | false =>
        rw [wrappedCall_err_sync opts dl names sess sink original args thisv
          lv t1 t2 t3 e hsink herr]
    · intro res hok hno
      rw [wrappedCall_ok async opts dl names sess sink original args thisv
        lv t1 t2 t3 res hsink hok]
      have hcond : ¬(opts.ret = some InstrumentType.TraceAndReplay ∧
          opts.replayOverrideReturn = true ∧
          (applyReplayIfAvailable sess (opts.label.getD dl)
            (okUnitOf opts dl names sess args thisv lv t1 t2 res)
            (preCallOverrideArgs sess (opts.label.getD dl) names args)).1.overrideReturn.isSome = true) :=
        fun hc => hno ⟨hc.1, hc.2.1⟩
      simp only [if_neg hcond]

/-- C6 witness: a request error from the transport is swallowed by
`endpointSink`, and with a non-raising sink a raising original's own error —
not an emission error — reaches the caller. -/
theorem c6_witness :
    (endpointSink (fun _ => TransportOutcome.reqError "ECONNREFUSED")
        (some "http://localhost:3300/api/data") exLive).raised = none ∧
    (wrappedCall false exOpts "ReplayDemo.foo" ["x"] exSession (fun _ => none)
        (fun _ => .err "boom") [Value.num 1] Value.null none 10 11 12).result =
      .err "boom" :=
  ⟨c6_transport_failures_never_change_outcome.1
      (fun _ => TransportOutcome.reqError "ECONNREFUSED")
      (some "http://localhost:3300/api/data") exLive,
    (c6_transport_failures_never_change_outcome.2 false exOpts "ReplayDemo.foo"
      ["x"] exSession (fun _ => none) (fun _ => .err "boom") [Value.num 1]
      Value.null none 10 11 12 (fun _ => rfl)).1 "boom" rfl⟩

end Instrument
